import Mathlib

/-!
Verification of the scale-r data-processing core against its specification.

The source under scrutiny is `src/src/utils/highlightText.jsx`, which contains the
`highlightText` helper and the main dashboard application: numeric coercion
(`parseNumericValue`), the inverse spherical-Mercator reprojection pipeline
(`toWgs84Coordinate`, `transformToWgs84`, `walkCoordinates`,
`reprojectFeatureCollectionIfNeeded`), the census ingestion (`processedFeatures`),
the search-state effect, and the filter/aggregation engine (`filteredStats`,
`pieChartData`, the marker-filter effect).

JavaScript values that flow through the modelled code are embedded as `JSVal`:
strings are Lean `String`s, numbers are rationals (`ℚ`) plus explicit `nan`,
`inf` and `ninf` constructors for the non-finite doubles the code guards
against, and `null`/`undefined` are separate constructors.  Geometry
coordinates, whose arithmetic goes through `Math.exp`/`Math.atan`, are embedded
over `ℝ`.
-/

namespace ScaleR

/-- Embedding of the JavaScript values the modelled code manipulates:
strings, finite numbers (as rationals), the non-finite numbers `NaN`,
`Infinity` and `-Infinity`, `null` and `undefined`. -/
inductive JSVal where
  | str (s : String)
  | num (q : ℚ)
  | nan
  | inf
  | ninf
  | null
  | undefined
deriving DecidableEq, Repr

/-- JavaScript truthiness for `JSVal`: the empty string, the number `0`,
`NaN`, `null` and `undefined` are falsy; every other embedded value is
truthy. -/
def truthy : JSVal → Bool
  | .str s => !(s = "")
  | .num q => !(q = 0)
  | .nan => false
  | .inf => true
  | .ninf => true
  | .null => false
  | .undefined => false

/-- The JavaScript `a || b` operator on embedded values: `a` when truthy,
otherwise `b`. -/
def jsOrV (a b : JSVal) : JSVal :=
  if truthy a then a else b

/-- JavaScript `||` on optional strings (used for property fallback chains
where the properties involved are strings or absent): `some s` is truthy
exactly when `s` is nonempty. -/
def truthyS : Option String → Bool
  | some s => !(s = "")
  | none => false

/-- The JavaScript `a || b` operator restricted to string-or-absent property
values. -/
def jsOrS (a b : Option String) : Option String :=
  if truthyS a then a else b

/-! ### Number() on a cleaned string — support for `parseNumericValue`

`parseNumericValue` (source lines 63-69) strips every character outside
`[0-9eE.+-]` with `String(value).replace(/[^0-9eE.+-]/g, '')` and applies the
JavaScript `Number` conversion.  Over that restricted alphabet `Number`
implements: the empty string converts to `0`; otherwise the whole string must
be an optionally signed decimal literal (`digits`, `digits.digits?`,
`.digits`, each with an optional `e`/`E` exponent carrying its own optional
sign and at least one digit); anything else converts to `NaN`.  Overflow to
`Infinity` is a double-precision artefact outside the rational embedding and
is not modelled; every successfully parsed literal is a finite rational. -/

/-- Characters kept by the `replace(/[^0-9eE.+-]/g, '')` cleaning step of
`parseNumericValue`: digits, `e`, `E`, `.`, `+`, `-`. -/
def isNumericKeptChar (c : Char) : Bool :=
  c.isDigit || c = 'e' || c = 'E' || c = '.' || c = '+' || c = '-'

/-- The cleaning step of `parseNumericValue`: drop every character outside
`[0-9eE.+-]`. -/
def cleanNumeric (s : String) : String :=
  String.mk (s.data.filter isNumericKeptChar)

/-- Split a character list into its longest leading run of decimal digits and
the remainder. -/
def readDigits : List Char → List Char × List Char
  | [] => ([], [])
  | c :: cs =>
    if c.isDigit then
      let (ds, rest) := readDigits cs
      (c :: ds, rest)
    else ([], c :: cs)

/-- Numeric value of a digit run, most significant digit first. -/
def digitsValN (ds : List Char) : ℕ :=
  ds.foldl (fun acc c => acc * 10 + (c.toNat - '0'.toNat)) 0

/-- Numeric value of a digit run, as a rational. -/
def digitsVal (ds : List Char) : ℚ :=
  (digitsValN ds : ℚ)

/-- Scale a rational by a signed power of ten (the effect of a decimal
exponent). -/
def scalePow10 (q : ℚ) (e : ℤ) : ℚ :=
  if e = 0 then q
  else if 0 ≤ e then q * (10 : ℚ) ^ e.toNat else q / (10 : ℚ) ^ (-e).toNat

/-- Parse the exponent tail of a decimal literal for `Number`: the remaining
characters must be empty, or exactly `e`/`E`, an optional sign and at least
one digit.  Returns the exponent value, or `none` when the tail is not a
valid complete exponent (in which case `Number` yields `NaN`). -/
def numExpTail : List Char → Option ℤ
  | [] => some 0
  | c :: cs =>
    if c = 'e' || c = 'E' then
      match cs with
      | '+' :: ds =>
        let (es, rest) := readDigits ds
        if es ≠ [] && rest = [] then some (digitsValN es : ℤ) else none
      | '-' :: ds =>
        let (es, rest) := readDigits ds
        if es ≠ [] && rest = [] then some (-(digitsValN es : ℤ)) else none
      | ds =>
        let (es, rest) := readDigits ds
        if es ≠ [] && rest = [] then some (digitsValN es : ℤ) else none
    else none

/-- Parse an unsigned decimal literal (over the cleaned alphabet) that must
span the whole character list: `digits`, `digits.`, `digits.digits`,
`.digits`, each followed by an optional complete exponent.  `none` models
`NaN`. -/
def numUnsigned (l : List Char) : Option ℚ :=
  let (ds, r1) := readDigits l
  match r1 with
  | '.' :: r2 =>
    let (fs, r3) := readDigits r2
    if ds = [] && fs = [] then none
    else
      match numExpTail r3 with
      | some e => some (scalePow10 (digitsVal ds + scalePow10 (digitsVal fs) (-(fs.length : ℤ))) e)
      | none => none
  | _ =>
    if ds = [] then none
    else
      match numExpTail r1 with
      | some e => some (scalePow10 (digitsVal ds) e)
      | none => none

/-- The JavaScript `Number` conversion restricted to strings over the cleaned
alphabet `[0-9eE.+-]`: empty string converts to `0`, otherwise the whole
string must be an optionally signed decimal literal; `none` models `NaN`. -/
def jsNumber (s : String) : Option ℚ :=
  match s.data with
  | [] => some 0
  | '+' :: rest => numUnsigned rest
  | '-' :: rest => (numUnsigned rest).map (fun q => -q)
  | l => numUnsigned l

/-- The string produced by JavaScript `String(value)` for each embedded
value (only the coercions `parseNumericValue` can trigger are needed:
numbers are rendered by their decimal notation, which the subsequent
clean-and-parse recovers exactly, so the composition is modelled directly in
`parseNumericValue`; the non-finite numbers render as `"NaN"`,
`"Infinity"` and `"-Infinity"`). -/
def jsStringOfNonFinite : JSVal → String
  | .nan => "NaN"
  | .inf => "Infinity"
  | .ninf => "-Infinity"
  | _ => ""

/-- Embedding of `parseNumericValue` (source lines 63-69):
`null`/`undefined` return `null`; a finite number is returned unchanged; any
other value is string-coerced, stripped to `[0-9eE.+-]` and converted with
`Number`, and a non-finite conversion result becomes `null`.  For a finite
number the round trip `Number(clean(String(q)))` is the identity, which the
model uses directly; for `NaN`/`±Infinity` the coerced strings are cleaned
and converted explicitly. -/
def parseNumericValue : JSVal → Option ℚ
  | .null => none
  | .undefined => none
  | .num q => some q
  | .str s => jsNumber (cleanNumeric s)
  | v => jsNumber (cleanNumeric (jsStringOfNonFinite v))

/-- Stated from the claim's words, for comparison with the source's cleaning
step: strip all characters except digits, sign, decimal point, and exponent
markers. -/
def stripPerClaim (s : String) : String :=
  String.mk (s.data.filter (fun c => c.isDigit || c = '+' || c = '-' || c = '.' || c = 'e' || c = 'E'))

end ScaleR

namespace ScaleR

/-- C7: for every input value (string, number, null, or undefined — with the
non-finite numbers `NaN`/`±Infinity` included among numbers), numeric
coercion returns either a finite number (a rational in this embedding, so in
particular never `NaN` and never infinite) or null; it strips all characters
except digits, sign, decimal point and exponent markers before parsing;
it returns finite numbers unchanged; null and undefined map to null; and it
is a total function (never throws). -/
theorem parseNumericValue_finite_or_null :
    (∀ v : JSVal, parseNumericValue v = none ∨ ∃ q : ℚ, parseNumericValue v = some q) ∧
    (∀ q : ℚ, parseNumericValue (.num q) = some q) ∧
    (∀ s : String, parseNumericValue (.str s) = jsNumber (stripPerClaim s)) ∧
    parseNumericValue .null = none ∧
    parseNumericValue .undefined = none := by
  refine ⟨fun v => ?_, fun q => rfl, fun s => ?_, rfl, rfl⟩
  · cases h : parseNumericValue v with
    | none => exact Or.inl rfl
    | some q => exact Or.inr ⟨q, rfl⟩
  · show jsNumber (cleanNumeric s) = jsNumber (stripPerClaim s)
    have : cleanNumeric s = stripPerClaim s := by
      unfold cleanNumeric stripPerClaim
      congr 1
      apply List.filter_congr
      intro c _
      unfold isNumericKeptChar
      rw [Bool.eq_iff_iff]
      simp only [Bool.or_eq_true, decide_eq_true_eq]
      tauto
    rw [this]

end ScaleR

namespace ScaleR

/-! ### parseFloat — support for the cost parsing in `filteredStats`

`filteredStats` (source lines 1597-1609) parses each visible feature's cost
with `parseFloat(cost.replace(/[$,]/g, ''))` for strings and
`parseFloat(cost)` otherwise, then skips the contribution when the result is
`NaN` or non-finite.  JavaScript `parseFloat` skips leading whitespace,
reads an optional sign, then the longest prefix that is `Infinity` or a
decimal literal (`digits`, `digits.digits?`, `.digits`, with an exponent
consumed only when `e`/`E` is followed by an optional sign and at least one
digit); it yields `NaN` when no literal is found, and ignores any trailing
characters. -/

/-- Result of the JavaScript `parseFloat` conversion: a finite number, `NaN`,
or a signed infinity. -/
inductive FloatRes where
  | finite (q : ℚ)
  | nan
  | inf
  | ninf
deriving DecidableEq, Repr

/-- Whether the first list is an initial segment of the second (used for the
`Infinity` literal test of `parseFloat`). -/
def leadsWith : List Char → List Char → Bool
  | [], _ => true
  | _ :: _, [] => false
  | a :: as, b :: bs => a = b && leadsWith as bs

/-- Whitespace characters skipped by `parseFloat` (ECMAScript `StrWhiteSpace`,
restricted to the ASCII ones). -/
def isJsWhitespace (c : Char) : Bool :=
  c = ' ' || c = '\t' || c = '\n' || c = '\r' || c = '\x0b' || c = '\x0c'

/-- JavaScript `String.prototype.trim`: drop whitespace from both ends
(executable model used wherever the source calls `.trim()`). -/
def jsTrim (s : String) : String :=
  String.mk (((s.data.dropWhile isJsWhitespace).reverse.dropWhile isJsWhitespace).reverse)

/-- Longest-prefix exponent for `parseFloat`: consume `e`/`E`, an optional
sign and at least one digit; otherwise consume nothing (exponent `0`). -/
def floatExpPart : List Char → ℤ
  | c :: cs =>
    if c = 'e' || c = 'E' then
      match cs with
      | '+' :: ds => if (readDigits ds).1 ≠ [] then ((digitsValN (readDigits ds).1 : ℤ)) else 0
      | '-' :: ds => if (readDigits ds).1 ≠ [] then (-(digitsValN (readDigits ds).1 : ℤ)) else 0
      | ds => if (readDigits ds).1 ≠ [] then ((digitsValN (readDigits ds).1 : ℤ)) else 0
    else 0
  | [] => 0

/-- Longest-prefix unsigned decimal literal for `parseFloat`: leading digits,
an optional fraction, and an optional valid exponent; `none` (`NaN`) when not
even one mantissa digit is present.  Trailing characters are ignored. -/
def floatUnsigned (l : List Char) : Option ℚ :=
  let (ds, r1) := readDigits l
  match r1 with
  | '.' :: r2 =>
    let (fs, r3) := readDigits r2
    if ds = [] && fs = [] then none
    else some (scalePow10 (digitsVal ds + scalePow10 (digitsVal fs) (-(fs.length : ℤ))) (floatExpPart r3))
  | _ =>
    if ds = [] then none
    else some (scalePow10 (digitsVal ds) (floatExpPart r1))

/-- The JavaScript `parseFloat` conversion on strings: skip leading
whitespace, read an optional sign, then `Infinity` or the longest decimal
literal prefix; `NaN` when none is found. -/
def jsParseFloat (s : String) : FloatRes :=
  let l := s.data.dropWhile isJsWhitespace
  match l with
  | '+' :: rest =>
    if leadsWith "Infinity".data rest then .inf
    else match floatUnsigned rest with
      | some q => .finite q
      | none => .nan
  | '-' :: rest =>
    if leadsWith "Infinity".data rest then .ninf
    else match floatUnsigned rest with
      | some q => .finite (-q)
      | none => .nan
  | rest =>
    if leadsWith "Infinity".data rest then .inf
    else match floatUnsigned rest with
      | some q => .finite q
      | none => .nan

/-- The `cost.replace(/[$,]/g, '')` step of the cost parsing. -/
def stripDollarComma (s : String) : String :=
  String.mk (s.data.filter (fun c => !(c = '$' || c = ',')))

/-- `parseFloat(value)` for a non-string value, as used by `filteredStats`:
`parseFloat` first coerces its argument with `String(...)`.  A finite
rational's decimal rendering re-parses to itself; `NaN` and `±Infinity`
render as `"NaN"`, `"Infinity"`, `"-Infinity"`; `String(null)` = `"null"`
and `String(undefined)` = `"undefined"` parse to `NaN`. -/
def jsParseFloatOfValue : JSVal → FloatRes
  | .str s => jsParseFloat s
  | .num q => .finite q
  | .nan => .nan
  | .inf => .inf
  | .ninf => .ninf
  | .null => .nan
  | .undefined => .nan

end ScaleR

namespace ScaleR

/-! ### The filter/aggregation engine

`filteredStats` (source lines 1575-1612), `pieChartData` (lines 1615-1672)
and the marker-filter effect (lines 1525-1561) all read, per project feature,
the properties `Infrastruc` / `Infrastructure Type` / `Type` (fallback
chain), `Disaster_F` / `Disaster Focus`, `NAME` / `City`, `Categories`, and
the cost keys `Estimated_` / `Estimated Project Cost`.  A project feature is
embedded by the values of exactly those properties; the categorical ones are
strings or absent (`Option String`), the cost ones arbitrary `JSVal`s. -/

/-- The property values of one project feature that the filter/aggregation
engine reads.  `none` embeds an absent (`undefined`) property. -/
structure Props where
  infrastruc : Option String
  infrastructureType : Option String
  typeVal : Option String
  categories : Option String
  disasterF : Option String
  disasterFocus : Option String
  name : Option String
  city : Option String
  estimatedShort : JSVal
  estimatedProjectCost : JSVal
deriving DecidableEq, Repr

/-- The active filter selection: `selectedTypes`, `selectedDisasterFocus` and
`selectedCity` React state (source lines 228-231); the empty string is the
initial "all cities" selection. -/
structure Sel where
  selectedTypes : List String
  selectedDisasterFocus : List String
  selectedCity : String
deriving DecidableEq, Repr

/-- `props['Infrastruc'] || props['Infrastructure Type'] || props['Type']`. -/
def propType (p : Props) : Option String :=
  jsOrS p.infrastruc (jsOrS p.infrastructureType p.typeVal)

/-- `props['Disaster_F'] || props['Disaster Focus']`. -/
def propFocus (p : Props) : Option String :=
  jsOrS p.disasterF p.disasterFocus

/-- `(props['NAME'] || props['City']) ? (props['NAME'] || props['City']).trim()
: (props['NAME'] || props['City'])`. -/
def propCity (p : Props) : Option String :=
  let c := jsOrS p.name p.city
  if truthyS c then c.map jsTrim else c

/-- `selectedCity ? selectedCity.trim() : selectedCity`. -/
def selCityTrimmed (sel : Sel) : String :=
  if !(sel.selectedCity = "") then jsTrim sel.selectedCity else sel.selectedCity

/-- The filter predicate of `filteredStats` (source lines 1580-1591):
`typeMatch && disasterMatch && cityMatch`, where an empty selection matches
everything and the city test is
`!selectedCityTrimmed || selectedCityTrimmed === '' || city === selectedCityTrimmed`. -/
def statsFilterPred (sel : Sel) (p : Props) : Bool :=
  let typeMatch := sel.selectedTypes.isEmpty ||
    (match propType p with | some t => sel.selectedTypes.contains t | none => false)
  let disasterMatch := sel.selectedDisasterFocus.isEmpty ||
    (match propFocus p with | some d => sel.selectedDisasterFocus.contains d | none => false)
  let cityMatch := (selCityTrimmed sel == "") || (selCityTrimmed sel == "") ||
    (propCity p == some (selCityTrimmed sel))
  typeMatch && disasterMatch && cityMatch

/-- The filter predicate of the marker-filter effect (source lines
1530-1541), deciding `shouldShow` for each marker; its body repeats the
`filteredStats` predicate (the unused `Categories` read of line 1532 has no
effect on the result). -/
def markerShouldShow (sel : Sel) (p : Props) : Bool :=
  let typeMatch := sel.selectedTypes.isEmpty ||
    (match propType p with | some t => sel.selectedTypes.contains t | none => false)
  let disasterMatch := sel.selectedDisasterFocus.isEmpty ||
    (match propFocus p with | some d => sel.selectedDisasterFocus.contains d | none => false)
  let cityMatch := (selCityTrimmed sel == "") || (selCityTrimmed sel == "") ||
    (propCity p == some (selCityTrimmed sel))
  typeMatch && disasterMatch && cityMatch

/-- The filter predicate of `pieChartData` (source lines 1621-1632), again a
verbatim repetition of the `filteredStats` predicate. -/
def pieFilterPred (sel : Sel) (p : Props) : Bool :=
  let typeMatch := sel.selectedTypes.isEmpty ||
    (match propType p with | some t => sel.selectedTypes.contains t | none => false)
  let disasterMatch := sel.selectedDisasterFocus.isEmpty ||
    (match propFocus p with | some d => sel.selectedDisasterFocus.contains d | none => false)
  let cityMatch := (selCityTrimmed sel == "") || (selCityTrimmed sel == "") ||
    (propCity p == some (selCityTrimmed sel))
  typeMatch && disasterMatch && cityMatch

/-- The result record of `filteredStats`. -/
structure FilteredStats where
  projectCount : ℕ
  totalInvestment : ℚ
deriving DecidableEq, Repr

/-- One step of the `filteredFeatures.reduce(...)` cost accumulation of
`filteredStats` (source lines 1597-1609): skip falsy/null/undefined costs,
strip `$` and `,` from string costs before `parseFloat`, apply `parseFloat`
directly otherwise, and skip `NaN`/non-finite results. -/
def costStep (sum : ℚ) (p : Props) : ℚ :=
  let cost := jsOrV p.estimatedShort p.estimatedProjectCost
  if !truthy cost || cost = .null || cost = .undefined then sum
  else
    let numericCost := match cost with
      | .str s => jsParseFloat (stripDollarComma s)
      | v => jsParseFloatOfValue v
    match numericCost with
    | .finite q => sum + q
    | _ => sum

/-- Embedding of `filteredStats` (source lines 1575-1612) over the list of
project features (the `!allProjectsData?.features` early-out returns
`{0, 0}`, which coincides with the value computed for an empty feature
list). -/
def filteredStats (features : List Props) (sel : Sel) : FilteredStats :=
  let filteredFeatures := features.filter (statsFilterPred sel)
  let projectCount := filteredFeatures.length
  let totalInvestment := filteredFeatures.foldl costStep 0
  ⟨projectCount, totalInvestment⟩

end ScaleR

namespace ScaleR

/-- One entry of the recharts pie data built by `pieChartData`: `{ name,
value, color }`. -/
structure PieSlice where
  name : String
  value : ℕ
  color : String
deriving DecidableEq, Repr

/-- The type-name normalization of `pieChartData` (source lines 1641-1651):
the listed synonyms collapse to `Blue` / `Green` / `Grey` / `Hybrid`; any
other value is left unchanged. -/
def normalizeTypeName (t : String) : String :=
  if t = "Blue Infrastructure" || t = "Blue" then "Blue"
  else if t = "Green Infrastructure" || t = "Green" then "Green"
  else if t = "Grey Infrastructure" || t = "Grey" then "Grey"
  else if t = "Hybrid" then "Hybrid"
  else t

/-- `props['Infrastruc'] || props['Infrastructure Type'] || props['Type'] ||
'Unknown'` (source line 1639). -/
def pieRawType (p : Props) : String :=
  match jsOrS (propType p) (some "Unknown") with
  | some t => t
  | none => "Unknown"

/-- The normalized bucket name `pieChartData` counts a feature under. -/
def normTypeOf (p : Props) : String :=
  normalizeTypeName (pieRawType p)

/-- `typeCounts[normalizedType] = (typeCounts[normalizedType] || 0) + 1` on a
string-keyed object, preserving JavaScript object key insertion order:
an existing key keeps its position, a new key is appended. -/
def bumpCount : List (String × ℕ) → String → List (String × ℕ)
  | [], k => [(k, 1)]
  | (j, n) :: rest, k => if j = k then (j, n + 1) :: rest else (j, n) :: bumpCount rest k

/-- The `typeCounts` object of `pieChartData` (source lines 1636-1654) as an
insertion-ordered association list. -/
def typeCountsOf (features : List Props) : List (String × ℕ) :=
  features.foldl (fun m f => bumpCount m (normTypeOf f)) []

/-- The `colors[name] || '#95a5a6'` color association of `pieChartData`
(source lines 1657-1663 and 1669). -/
def colorLookup (name : String) : String :=
  if name = "Blue" then "#3498db"
  else if name = "Green" then "#27ae60"
  else if name = "Grey" then "#95a5a6"
  else if name = "Hybrid" then "#9b59b6"
  else if name = "Unknown" then "#95a5a6"
  else "#95a5a6"

/-- The descending-count comparison realized by
`.sort((a, b) => b.value - a.value)`. -/
def pieGe (a b : PieSlice) : Prop := b.value ≤ a.value

instance : DecidableRel pieGe := fun a b => inferInstanceAs (Decidable (b.value ≤ a.value))

instance : IsTotal PieSlice pieGe := ⟨fun a b => Nat.le_total b.value a.value⟩

instance : IsTrans PieSlice pieGe := ⟨fun _ _ _ h1 h2 => Nat.le_trans h2 h1⟩

/-- Embedding of `pieChartData` (source lines 1615-1672): filter the features,
count them per normalized bucket in first-seen order, attach colors, and sort
by descending count.  `Array.prototype.sort` with a consistent comparator is a
stable sort, which insertion sort under `pieGe` realizes exactly. -/
def pieChartData (features : List Props) (sel : Sel) : List PieSlice :=
  let filteredFeatures := features.filter (pieFilterPred sel)
  let typeCounts := typeCountsOf filteredFeatures
  List.insertionSort pieGe (typeCounts.map (fun e => ⟨e.1, e.2, colorLookup e.1⟩))

end ScaleR

namespace ScaleR

theorem trim_empty_string : jsTrim "" = "" := by decide

theorem selCityTrimmed_eq_trim (sel : Sel) : selCityTrimmed sel = jsTrim sel.selectedCity := by
  unfold selCityTrimmed
  split
  · rfl
  · next h =>
    simp only [Bool.not_eq_eq_eq_not, Bool.not_true, decide_eq_false_iff_not,
      Decidable.not_not] at h
    rw [h, trim_empty_string]

theorem propCity_eq_map_trim (p : Props) :
    propCity p = (jsOrS p.name p.city).map jsTrim := by
  unfold propCity
  cases h : jsOrS p.name p.city with
  | none => simp [truthyS]
  | some s =>
    by_cases hs : s = ""
    · subst hs
      simp [truthyS, trim_empty_string]
    · simp [truthyS, hs]

/-- Stated from the claim's words (C1): a feature is visible iff (selected
types empty OR its type among them) AND (selected focuses empty OR its focus
among them) AND (selected city empty OR the feature's trimmed city equals
the trimmed selected city).  "Empty" in the city dimension is read as empty
after trimming, matching the claim's own reference to the trimmed selected
city; a feature with no city property has no trimmed city and matches no
nonempty city selection. -/
def claimVisiblePred (sel : Sel) (p : Props) : Bool :=
  (sel.selectedTypes.isEmpty ||
    (match propType p with | some t => sel.selectedTypes.contains t | none => false)) &&
  (sel.selectedDisasterFocus.isEmpty ||
    (match propFocus p with | some d => sel.selectedDisasterFocus.contains d | none => false)) &&
  ((jsTrim sel.selectedCity == "") ||
    ((jsOrS p.name p.city).map jsTrim == some (jsTrim sel.selectedCity)))

theorem statsFilterPred_eq_claim (sel : Sel) (p : Props) :
    statsFilterPred sel p = claimVisiblePred sel p := by
  unfold statsFilterPred claimVisiblePred
  rw [selCityTrimmed_eq_trim, propCity_eq_map_trim]
  cases h : (jsTrim sel.selectedCity == "") <;> simp [h]

/-- C1: for every project feature set and filter selection, the visible set
contains exactly the features satisfying (selected types empty OR type
selected) AND (selected focuses empty OR focus selected) AND (selected city
empty OR trimmed city equal to the trimmed selected city); an empty
selection in a dimension imposes no constraint.  The marker-filter effect
and `filteredStats` use this same predicate. -/
theorem filter_visible_set_matches_claim (sel : Sel) (features : List Props) :
    (∀ p, statsFilterPred sel p = claimVisiblePred sel p) ∧
    (∀ p, markerShouldShow sel p = claimVisiblePred sel p) ∧
    features.filter (statsFilterPred sel) = features.filter (claimVisiblePred sel) := by
  refine ⟨fun p => statsFilterPred_eq_claim sel p, fun p => statsFilterPred_eq_claim sel p, ?_⟩
  exact List.filter_congr (fun p _ => statsFilterPred_eq_claim sel p)

end ScaleR

namespace ScaleR

/-- Stated from the claim's words (C2): the parsed numeric cost of a feature —
string costs are parsed after removing `$` and `,` characters; a cost that
is null, missing, or unparseable (no finite parse) contributes zero. -/
def claimCost (p : Props) : ℚ :=
  match jsOrV p.estimatedShort p.estimatedProjectCost with
  | .str s =>
    match jsParseFloat (stripDollarComma s) with
    | .finite q => q
    | _ => 0
  | .num q => q
  | _ => 0

theorem costStep_eq_add_claimCost (sum : ℚ) (p : Props) :
    costStep sum p = sum + claimCost p := by
  unfold costStep claimCost
  cases h : jsOrV p.estimatedShort p.estimatedProjectCost with
  | str s =>
    by_cases hs : s = ""
    · subst hs
      have : jsParseFloat (stripDollarComma "") = FloatRes.nan := by decide
      simp [truthy, this]
    · simp only [truthy, hs]
      cases hp : jsParseFloat (stripDollarComma s) <;> simp [hs]
  | num q =>
    by_cases hq : q = 0
    · subst hq; simp [truthy, jsParseFloatOfValue]
    · simp [truthy, hq, jsParseFloatOfValue]
  | nan => simp [truthy, jsParseFloatOfValue]
  | inf => simp [truthy, jsParseFloatOfValue]
  | ninf => simp [truthy, jsParseFloatOfValue]
  | null => simp [truthy]
  | undefined => simp [truthy]

theorem foldl_costStep (l : List Props) (s : ℚ) :
    l.foldl costStep s = s + (l.map claimCost).sum := by
  induction l generalizing s with
  | nil => simp
  | cons p rest ih =>
    simp only [List.foldl_cons, List.map_cons, List.sum_cons, ih, costStep_eq_add_claimCost]
    ring

/-- The end-to-end scenario of C2: a 3-feature collection whose costs are
the number `1000000`, the string `"$2,000,000"`, and `null`. -/
def demoProjects : List Props :=
  [ { infrastruc := some "Blue Infrastructure", infrastructureType := none, typeVal := none,
      categories := none, disasterF := some "Flooding", disasterFocus := none,
      name := some "Miami", city := none,
      estimatedShort := .num 1000000, estimatedProjectCost := .undefined },
    { infrastruc := some "Green Infrastructure", infrastructureType := none, typeVal := none,
      categories := none, disasterF := some "Storm Surge", disasterFocus := none,
      name := some "Hialeah", city := none,
      estimatedShort := .str "$2,000,000", estimatedProjectCost := .undefined },
    { infrastruc := some "Hybrid", infrastructureType := none, typeVal := none,
      categories := none, disasterF := none, disasterFocus := none,
      name := some "Doral", city := none,
      estimatedShort := .null, estimatedProjectCost := .undefined } ]

/-- The "no filters active" selection: nothing selected in any dimension. -/
def selAll : Sel := ⟨[], [], ""⟩

/-- C2: for every project feature set and filter selection, the project count
is the size of the visible set and the total investment is the sum over
visible features of the parsed numeric cost (strings parsed after removing
`$` and `,`), a null/missing/unparseable cost contributing zero while the
feature still counts; on the 3-feature scenario with costs `1000000`,
`"$2,000,000"` and `null` and no active filters this yields count 3 and
total exactly 3000000. -/
theorem filtered_stats_count_and_investment_spec (features : List Props) (sel : Sel) :
    (filteredStats features sel).projectCount = (features.filter (statsFilterPred sel)).length ∧
    (filteredStats features sel).totalInvestment =
      ((features.filter (statsFilterPred sel)).map claimCost).sum ∧
    filteredStats demoProjects selAll = ⟨3, 3000000⟩ := by
  have hinvest : ∀ (fs : List Props) (s : Sel),
      (filteredStats fs s).totalInvestment = ((fs.filter (statsFilterPred s)).map claimCost).sum := by
    intro fs s
    show (fs.filter (statsFilterPred s)).foldl costStep 0 = _
    rw [foldl_costStep, zero_add]
  refine ⟨rfl, hinvest features sel, ?_⟩
  have hfilter : demoProjects.filter (statsFilterPred selAll) = demoProjects := by decide
  have hcount : (filteredStats demoProjects selAll).projectCount = 3 := by
    show (demoProjects.filter (statsFilterPred selAll)).length = 3
    rw [hfilter]; rfl
  have hmap : demoProjects.map claimCost = [1000000, 2000000, 0] := by decide
  have hinv : (filteredStats demoProjects selAll).totalInvestment = 3000000 := by
    rw [hinvest demoProjects selAll, hfilter, hmap]
    norm_num
  calc filteredStats demoProjects selAll
      = ⟨(filteredStats demoProjects selAll).projectCount,
         (filteredStats demoProjects selAll).totalInvestment⟩ := rfl
    _ = ⟨3, 3000000⟩ := by rw [hcount, hinv]

end ScaleR

namespace ScaleR

/-- Count held by a key in the `typeCounts` association list (`0` when
absent). -/
def lookupCount : List (String × ℕ) → String → ℕ
  | [], _ => 0
  | (j, n) :: rest, k => if j = k then n else lookupCount rest k

theorem lookupCount_bumpCount (m : List (String × ℕ)) (k j : String) :
    lookupCount (bumpCount m k) j = lookupCount m j + (if k = j then 1 else 0) := by
  induction m with
  | nil =>
    by_cases h : k = j <;> simp [bumpCount, lookupCount, h]
  | cons e rest ih =>
    obtain ⟨a, n⟩ := e
    by_cases hak : a = k
    · subst hak
      by_cases haj : a = j <;> simp [bumpCount, lookupCount, haj]
    · by_cases haj : a = j
      · subst haj
        have hkj : ¬ k = a := fun h => hak h.symm
        simp [bumpCount, lookupCount, hak, hkj]
      · simp [bumpCount, lookupCount, hak, haj, ih]

theorem lookupCount_foldl_bumpCount (keys : List String) (m : List (String × ℕ)) (j : String) :
    lookupCount (keys.foldl bumpCount m) j = lookupCount m j + keys.count j := by
  induction keys generalizing m with
  | nil => simp
  | cons k rest ih =>
    simp only [List.foldl_cons, ih, lookupCount_bumpCount, List.count_cons]
    by_cases h : k = j <;> simp [h] <;> omega

theorem mem_keys_bumpCount (m : List (String × ℕ)) (k j : String) :
    j ∈ (bumpCount m k).map Prod.fst ↔ (j ∈ m.map Prod.fst ∨ j = k) := by
  induction m with
  | nil => simp [bumpCount]
  | cons e rest ih =>
    obtain ⟨a, n⟩ := e
    by_cases hak : a = k
    · subst hak
      by_cases haj : j = a <;> simp [bumpCount, haj]
    · simp [bumpCount, hak, ih]
      tauto

theorem nodup_keys_bumpCount (m : List (String × ℕ)) (k : String)
    (h : (m.map Prod.fst).Nodup) : ((bumpCount m k).map Prod.fst).Nodup := by
  induction m with
  | nil => simp [bumpCount]
  | cons e rest ih =>
    obtain ⟨a, n⟩ := e
    simp only [List.map_cons, List.nodup_cons] at h
    by_cases hak : a = k
    · subst hak
      show ((if a = a then (a, n + 1) :: rest else (a, n) :: bumpCount rest a).map Prod.fst).Nodup
      rw [if_pos rfl]
      simp only [List.map_cons, List.nodup_cons]
      exact h
    · simp only [bumpCount, if_neg hak, List.map_cons, List.nodup_cons]
      refine ⟨?_, ih h.2⟩
      rw [mem_keys_bumpCount]
      rintro (hm | rfl)
      · exact h.1 hm
      · exact hak rfl

theorem nodup_keys_foldl_bumpCount (keys : List String) (m : List (String × ℕ))
    (h : (m.map Prod.fst).Nodup) : ((keys.foldl bumpCount m).map Prod.fst).Nodup := by
  induction keys generalizing m with
  | nil => exact h
  | cons k rest ih => exact ih (bumpCount m k) (nodup_keys_bumpCount m k h)

theorem mem_keys_foldl_bumpCount (keys : List String) (m : List (String × ℕ)) (j : String) :
    j ∈ ((keys.foldl bumpCount m).map Prod.fst) ↔ (j ∈ m.map Prod.fst ∨ j ∈ keys) := by
  induction keys generalizing m with
  | nil => simp
  | cons k rest ih =>
    simp only [List.foldl_cons, ih, mem_keys_bumpCount, List.mem_cons]
    tauto

theorem lookupCount_of_mem (m : List (String × ℕ)) (h : (m.map Prod.fst).Nodup)
    (j : String) (n : ℕ) (hm : (j, n) ∈ m) : lookupCount m j = n := by
  induction m with
  | nil => cases hm
  | cons e rest ih =>
    obtain ⟨a, b⟩ := e
    simp only [List.map_cons, List.nodup_cons] at h
    rcases List.mem_cons.mp hm with heq | hmem
    · obtain ⟨rfl, rfl⟩ := Prod.mk.injEq .. ▸ And.intro (congrArg Prod.fst heq) (congrArg Prod.snd heq)
      simp [lookupCount]
    · have haj : ¬ a = j := by
        rintro rfl
        exact h.1 (List.mem_map.mpr ⟨(a, n), hmem, rfl⟩)
      simp only [lookupCount, if_neg haj]
      exact ih h.2 hmem

end ScaleR

namespace ScaleR

/-- The slice `pieChartData` builds from one `typeCounts` entry. -/
def mkSlice (e : String × ℕ) : PieSlice :=
  ⟨e.1, e.2, colorLookup e.1⟩

theorem typeCountsOf_eq_foldl (fs : List Props) :
    typeCountsOf fs = (fs.map normTypeOf).foldl bumpCount [] := by
  unfold typeCountsOf
  rw [List.foldl_map]

/-- A project feature whose infrastructure type `"Coastal"` matches no
synonym of the canonical buckets. -/
def coastalProps : Props :=
  { infrastruc := some "Coastal", infrastructureType := none, typeVal := none,
    categories := none, disasterF := none, disasterFocus := none,
    name := some "Key West", city := none,
    estimatedShort := .undefined, estimatedProjectCost := .undefined }

/-- C3 counterexample: the category distribution does not map every
non-synonym type value to an `"Unknown"` bucket — a feature typed
`"Coastal"` produces a bucket literally named `"Coastal"`, outside the
claimed closed set of bucket names. -/
theorem pie_chart_closed_buckets_refuted :
    pieChartData [coastalProps] selAll = [⟨"Coastal", 1, "#95a5a6"⟩] ∧
    "Coastal" ∉ (["Blue", "Green", "Grey", "Hybrid", "Unknown"] : List String) ∧
    ¬ (∀ sl ∈ pieChartData [coastalProps] selAll,
        sl.name ∈ (["Blue", "Green", "Grey", "Hybrid", "Unknown"] : List String)) := by
  refine ⟨by decide, by decide, by decide⟩

/-- C3 (amended): the category distribution groups visible features into
buckets keyed by the normalized type, where the synonyms
`Blue Infrastructure`/`Blue`, `Green Infrastructure`/`Green`,
`Grey Infrastructure`/`Grey` and `Hybrid` collapse to the canonical buckets,
a feature with a falsy (missing or empty) type falls into the `"Unknown"`
bucket, and any other type value forms a bucket under its own unchanged
name; the canonical buckets carry fixed colors and every other bucket name
(including `"Unknown"`) carries the neutral gray `#95a5a6`; each bucket's
value is the number of visible features normalizing to its name, bucket
names are distinct and exactly the normalized types present, and the buckets
are sorted by descending count. -/
theorem pie_chart_distribution_amended (features : List Props) (sel : Sel) :
    (∀ sl ∈ pieChartData features sel,
      sl.value = ((features.filter (pieFilterPred sel)).map normTypeOf).count sl.name ∧
      sl.color = colorLookup sl.name) ∧
    (∀ nm : String, (∃ sl ∈ pieChartData features sel, sl.name = nm) ↔
      nm ∈ (features.filter (pieFilterPred sel)).map normTypeOf) ∧
    List.Sorted pieGe (pieChartData features sel) ∧
    ((pieChartData features sel).map PieSlice.name).Nodup ∧
    (∀ p : Props, truthyS (propType p) = false → normTypeOf p = "Unknown") ∧
    (normalizeTypeName "Blue Infrastructure" = "Blue" ∧
     normalizeTypeName "Green Infrastructure" = "Green" ∧
     normalizeTypeName "Grey Infrastructure" = "Grey" ∧
     normalizeTypeName "Hybrid" = "Hybrid") ∧
    (colorLookup "Blue" = "#3498db" ∧ colorLookup "Green" = "#27ae60" ∧
     colorLookup "Grey" = "#95a5a6" ∧ colorLookup "Hybrid" = "#9b59b6" ∧
     colorLookup "Unknown" = "#95a5a6") ∧
    (∀ t : String, t ∉ (["Blue Infrastructure", "Blue", "Green Infrastructure", "Green",
        "Grey Infrastructure", "Grey", "Hybrid"] : List String) → normalizeTypeName t = t) ∧
    (∀ nm : String, nm ∉ (["Blue", "Green", "Grey", "Hybrid", "Unknown"] : List String) →
      colorLookup nm = "#95a5a6") := by
  have hperm : List.Perm (pieChartData features sel)
      ((typeCountsOf (features.filter (pieFilterPred sel))).map mkSlice) :=
    List.perm_insertionSort pieGe _
  have hnodupkeys : ((typeCountsOf (features.filter (pieFilterPred sel))).map Prod.fst).Nodup := by
    rw [typeCountsOf_eq_foldl]
    exact nodup_keys_foldl_bumpCount _ [] (by simp)
  refine ⟨?_, ?_, List.sorted_insertionSort pieGe _, ?_, ?_, by decide, by decide, ?_, ?_⟩
  · intro sl hsl
    obtain ⟨e, he, rfl⟩ := List.mem_map.mp (hperm.mem_iff.mp hsl)
    refine ⟨?_, rfl⟩
    have h1 : lookupCount (typeCountsOf (features.filter (pieFilterPred sel))) e.1 = e.2 :=
      lookupCount_of_mem _ hnodupkeys e.1 e.2 he
    have h2 : lookupCount (typeCountsOf (features.filter (pieFilterPred sel))) e.1 =
        lookupCount [] e.1 +
          ((features.filter (pieFilterPred sel)).map normTypeOf).count e.1 := by
      rw [typeCountsOf_eq_foldl]
      exact lookupCount_foldl_bumpCount _ [] e.1
    simp only [lookupCount] at h2
    show e.2 = List.count e.1 ((features.filter (pieFilterPred sel)).map normTypeOf)
    omega
  · intro nm
    constructor
    · rintro ⟨sl, hsl, rfl⟩
      obtain ⟨e, he, rfl⟩ := List.mem_map.mp (hperm.mem_iff.mp hsl)
      have : (mkSlice e).name ∈
          (typeCountsOf (features.filter (pieFilterPred sel))).map Prod.fst :=
        List.mem_map.mpr ⟨e, he, rfl⟩
      rw [typeCountsOf_eq_foldl] at this
      rcases (mem_keys_foldl_bumpCount _ [] _).mp this with h | h
      · simp at h
      · exact h
    · intro h
      have hmem : nm ∈ ((((features.filter (pieFilterPred sel)).map normTypeOf).foldl
          bumpCount []).map Prod.fst) :=
        (mem_keys_foldl_bumpCount _ [] nm).mpr (Or.inr h)
      rw [← typeCountsOf_eq_foldl] at hmem
      obtain ⟨e, he, hfst⟩ := List.mem_map.mp hmem
      exact ⟨mkSlice e, hperm.mem_iff.mpr (List.mem_map.mpr ⟨e, he, rfl⟩), hfst⟩
  · have hmapname : ((typeCountsOf (features.filter (pieFilterPred sel))).map mkSlice).map
        PieSlice.name = (typeCountsOf (features.filter (pieFilterPred sel))).map Prod.fst := by
      rw [List.map_map]
      rfl
    have := hperm.map PieSlice.name
    rw [hmapname] at this
    exact this.nodup_iff.mpr hnodupkeys
  · intro p h
    have hx : pieRawType p = "Unknown" := by
      unfold pieRawType jsOrS
      rw [h]
      rfl
    unfold normTypeOf
    rw [hx]
    decide
  · intro t ht
    simp only [List.mem_cons, List.not_mem_nil, or_false, not_or] at ht
    obtain ⟨h1, h2, h3, h4, h5, h6, h7⟩ := ht
    simp [normalizeTypeName, h1, h2, h3, h4, h5, h6, h7]
  · intro nm hnm
    simp only [List.mem_cons, List.not_mem_nil, or_false, not_or] at hnm
    obtain ⟨h1, h2, h3, h4, h5⟩ := hnm
    simp [colorLookup, h1, h2, h3, h4, h5]

/-- Witness for the amended C3 theorem: evaluated at a one-feature
collection typed `"Coastal"` with no active filters. -/
theorem pie_chart_distribution_amended_witness :
    (⟨"Coastal", 1, "#95a5a6"⟩ : PieSlice).value =
      (([coastalProps].filter (pieFilterPred selAll)).map normTypeOf).count "Coastal" ∧
    normalizeTypeName "Coastal" = "Coastal" ∧
    colorLookup "Coastal" = "#95a5a6" := by
  refine ⟨((pie_chart_distribution_amended [coastalProps] selAll).1
      ⟨"Coastal", 1, "#95a5a6"⟩ (by decide)).1,
    (pie_chart_distribution_amended [coastalProps] selAll).2.2.2.2.2.2.2.1 "Coastal" (by decide),
    (pie_chart_distribution_amended [coastalProps] selAll).2.2.2.2.2.2.2.2 "Coastal" (by decide)⟩

end ScaleR

namespace ScaleR

theorem sum_snd_bumpCount (m : List (String × ℕ)) (k : String) :
    ((bumpCount m k).map Prod.snd).sum = (m.map Prod.snd).sum + 1 := by
  induction m with
  | nil => simp [bumpCount]
  | cons e rest ih =>
    obtain ⟨a, n⟩ := e
    by_cases hak : a = k
    · subst hak
      show ((if a = a then (a, n + 1) :: rest else (a, n) :: bumpCount rest a).map Prod.snd).sum = _
      rw [if_pos rfl]
      simp
      omega
    · show ((if a = k then (a, n + 1) :: rest else (a, n) :: bumpCount rest k).map Prod.snd).sum = _
      rw [if_neg hak]
      simp [ih]
      omega

theorem sum_snd_foldl_bumpCount (keys : List String) (m : List (String × ℕ)) :
    ((keys.foldl bumpCount m).map Prod.snd).sum = (m.map Prod.snd).sum + keys.length := by
  induction keys generalizing m with
  | nil => simp
  | cons k rest ih =>
    simp only [List.foldl_cons, ih, sum_snd_bumpCount, List.length_cons]
    omega

/-- C9: project count, total investment and category distribution are all
computed from the same visible set — the filter predicates of
`filteredStats`, the marker effect and `pieChartData` are extensionally
equal (indeed definitionally: the source repeats the same predicate), so the
count equals the size of the pie chart's visible set, the investment sums
over exactly that set, and the bucket counts of the distribution add up to
the project count. -/
theorem aggregates_share_visible_set (features : List Props) (sel : Sel) :
    (∀ p : Props, statsFilterPred sel p = pieFilterPred sel p) ∧
    (∀ p : Props, markerShouldShow sel p = pieFilterPred sel p) ∧
    features.filter (statsFilterPred sel) = features.filter (pieFilterPred sel) ∧
    (filteredStats features sel).projectCount = (features.filter (pieFilterPred sel)).length ∧
    (filteredStats features sel).totalInvestment =
      ((features.filter (pieFilterPred sel)).map claimCost).sum ∧
    ((pieChartData features sel).map PieSlice.value).sum =
      (filteredStats features sel).projectCount := by
  refine ⟨fun p => rfl, fun p => rfl, rfl, rfl, ?_, ?_⟩
  · show (features.filter (statsFilterPred sel)).foldl costStep 0 = _
    rw [foldl_costStep, zero_add]
    rfl
  · have hperm : List.Perm (pieChartData features sel)
        ((typeCountsOf (features.filter (pieFilterPred sel))).map mkSlice) :=
      List.perm_insertionSort pieGe _
    have hsum := (hperm.map PieSlice.value).sum_eq
    have hmapval : (((typeCountsOf (features.filter (pieFilterPred sel))).map mkSlice).map
        PieSlice.value) = (typeCountsOf (features.filter (pieFilterPred sel))).map Prod.snd := by
      rw [List.map_map]
      rfl
    rw [hmapval] at hsum
    rw [hsum, typeCountsOf_eq_foldl, sum_snd_foldl_bumpCount]
    simp only [List.map_nil, List.sum_nil, Nat.zero_add, List.length_map]
    rfl

end ScaleR

namespace ScaleR

/-! ### The Coordinate Normalizer

`toWgs84Coordinate`, `transformToWgs84`, `walkCoordinates` and
`reprojectFeatureCollectionIfNeeded` (source lines 71-127).  Geometry
`coordinates` values are arbitrarily nested arrays of numbers, embedded over
`ℝ` since the per-coordinate transform uses `Math.exp`/`Math.atan`. -/

/-- A geometry `coordinates` value: a number or an arbitrarily nested
array. -/
inductive CVal where
  | num (x : ℝ)
  | arr (l : List CVal)

/-- A feature as `reprojectFeatureCollectionIfNeeded` sees it: `none` embeds
a falsy feature/geometry/`coordinates` (skipped by the coordinate walk and
left untouched by the mapping step). -/
structure GFeature where
  geometry : Option CVal

/-- A feature collection (only the `features` array is relevant: the spread
`{...featureCollection}` preserves any other fields verbatim). -/
structure FC where
  features : List GFeature

mutual

/-- Depth-first search for the first coordinate inside one `coordinates`
value, following `walkCoordinates` (source lines 87-98): a non-array is
skipped; an array whose first two elements are numbers is a coordinate;
any other array is traversed element by element. -/
def firstCoordOfVal : CVal → Option (ℝ × ℝ)
  | .num _ => none
  | .arr l =>
    match l with
    | .num x :: .num y :: _ => some (x, y)
    | _ => firstCoordOfList l

/-- Depth-first search over a list of nested coordinate values. -/
def firstCoordOfList : List CVal → Option (ℝ × ℝ)
  | [] => none
  | c :: cs =>
    match firstCoordOfVal c with
    | some p => some p
    | none => firstCoordOfList cs

end

/-- The first discoverable coordinate across a feature list, following the
`for`/`break` loop of `reprojectFeatureCollectionIfNeeded` (source lines
102-109): features without a usable geometry are skipped, and the loop stops
at the first feature yielding a coordinate. -/
def firstCoordOfFeatures : List GFeature → Option (ℝ × ℝ)
  | [] => none
  | f :: rest =>
    match f.geometry with
    | none => firstCoordOfFeatures rest
    | some c =>
      match firstCoordOfVal c with
      | some p => some p
      | none => firstCoordOfFeatures rest

/-- The first discoverable coordinate of a collection. -/
def firstCoordFC (fc : FC) : Option (ℝ × ℝ) :=
  firstCoordOfFeatures fc.features

/-- Embedding of `toWgs84Coordinate` (source lines 71-77): the inverse
spherical-Mercator transform with `originShift = 20037508.34`. -/
noncomputable def toWgs84Coordinate (p : ℝ × ℝ) : ℝ × ℝ :=
  let originShift : ℝ := 20037508.34
  let lon := (p.1 / originShift) * 180
  let lat0 := (p.2 / originShift) * 180
  (lon, (180 / Real.pi) * (2 * Real.arctan (Real.exp ((lat0 * Real.pi) / 180)) - Real.pi / 2))

mutual

/-- Embedding of `transformToWgs84` (source lines 79-85): non-arrays are
returned unchanged, an array whose first two elements are numbers becomes
the two-element reprojected coordinate, any other array is mapped
recursively. -/
noncomputable def transformToWgs84 : CVal → CVal
  | .num x => .num x
  | .arr l =>
    match l with
    | .num x :: .num y :: _ =>
      .arr [.num (toWgs84Coordinate (x, y)).1, .num (toWgs84Coordinate (x, y)).2]
    | _ => .arr (transformList l)

/-- `coords.map(transformToWgs84)`. -/
noncomputable def transformList : List CVal → List CVal
  | [] => []
  | c :: cs => transformToWgs84 c :: transformList cs

end

open Classical in
/-- Embedding of `reprojectFeatureCollectionIfNeeded` (source lines 100-127):
an empty collection or one without a discoverable coordinate is returned
unchanged; otherwise the whole collection is reprojected exactly when the
first discoverable coordinate lies outside `|lon| ≤ 180`, `|lat| ≤ 90`. -/
noncomputable def reprojectFeatureCollectionIfNeeded (fc : FC) : FC :=
  if fc.features.isEmpty then fc
  else
    match firstCoordFC fc with
    | none => fc
    | some c =>
      if |c.1| > 180 ∨ |c.2| > 90 then
        ⟨fc.features.map (fun f =>
          match f.geometry with
          | none => f
          | some coords => ⟨some (transformToWgs84 coords)⟩)⟩
      else fc

/-- C4: a collection whose first discoverable coordinate is already within
geographic bounds, and a collection with no discoverable coordinate, are both
returned unchanged; consequently a second run returns the first run's result
unchanged (already-geographic output is a fixed point). -/
theorem reproject_unchanged_when_geographic (fc : FC)
    (h : ∀ x y, firstCoordFC fc = some (x, y) → |x| ≤ 180 ∧ |y| ≤ 90) :
    reprojectFeatureCollectionIfNeeded fc = fc ∧
    reprojectFeatureCollectionIfNeeded (reprojectFeatureCollectionIfNeeded fc) =
      reprojectFeatureCollectionIfNeeded fc := by
  have h1 : reprojectFeatureCollectionIfNeeded fc = fc := by
    unfold reprojectFeatureCollectionIfNeeded
    split
    · rfl
    · cases hc : firstCoordFC fc with
      | none => rfl
      | some c =>
        obtain ⟨hx, hy⟩ := h c.1 c.2 (by rw [hc])
        have hneg : ¬(|c.1| > 180 ∨ |c.2| > 90) := by
          push_neg
          exact ⟨hx, hy⟩
        exact if_neg hneg
  exact ⟨h1, by rw [h1, h1]⟩

/-- A one-feature collection whose point is already in geographic range. -/
def geoFC : FC := ⟨[⟨some (.arr [.num 10, .num 20])⟩]⟩

/-- Witness for C4 at the concrete collection `geoFC`. -/
theorem reproject_unchanged_when_geographic_witness :
    reprojectFeatureCollectionIfNeeded geoFC = geoFC ∧
    reprojectFeatureCollectionIfNeeded (reprojectFeatureCollectionIfNeeded geoFC) =
      reprojectFeatureCollectionIfNeeded geoFC :=
  reproject_unchanged_when_geographic geoFC (by
    intro x y hxy
    have hfc : firstCoordFC geoFC = some ((10 : ℝ), (20 : ℝ)) := rfl
    rw [hfc] at hxy
    injection hxy with h2
    injection h2 with hx hy
    subst hx
    subst hy
    constructor
    · rw [abs_of_nonneg (by norm_num)]
      norm_num
    · rw [abs_of_nonneg (by norm_num)]
      norm_num)

/-- C5: the per-coordinate reprojection computes
`lon = (x / R) * 180` and
`lat = (180/π) * (2 * atan(exp((y/R) * 180 * π/180)) − π/2)` with
`R = 20037508.34`, and maps the projected origin `(0, 0)` exactly to
geographic `(0, 0)`. -/
theorem toWgs84Coordinate_formula_and_origin :
    (∀ x y : ℝ, toWgs84Coordinate (x, y) =
      ((x / 20037508.34) * 180,
        (180 / Real.pi) *
          (2 * Real.arctan (Real.exp (((y / 20037508.34) * 180) * (Real.pi / 180))) -
            Real.pi / 2))) ∧
    toWgs84Coordinate (0, 0) = (0, 0) := by
  constructor
  · intro x y
    show ((x / 20037508.34) * 180,
      (180 / Real.pi) *
        (2 * Real.arctan (Real.exp ((((y / 20037508.34) * 180) * Real.pi) / 180)) -
          Real.pi / 2)) = _
    rw [mul_div_assoc]
  · show ((0 / 20037508.34) * 180,
      (180 / Real.pi) *
        (2 * Real.arctan (Real.exp (((((0 : ℝ) / 20037508.34) * 180) * Real.pi) / 180)) -
          Real.pi / 2)) = ((0 : ℝ), (0 : ℝ))
    norm_num [Real.exp_zero, Real.arctan_one]
    right
    ring

end ScaleR

namespace ScaleR

/-! ### The search state machine -/

/-- ASCII lower-casing at the character-list level (the model of
`String.prototype.toLowerCase` on the ASCII range the data uses). -/
def jsToLower (s : String) : String :=
  String.mk (s.data.map Char.toLower)

/-- Whether `needle` occurs as a contiguous run inside `haystack`
(the model of `String.prototype.includes`). -/
def containsSub (needle haystack : List Char) : Bool :=
  leadsWith needle haystack ||
    match haystack with
    | [] => false
    | _ :: rest => containsSub needle rest

/-- The searchable fields of one project record (spec §3: name, city,
infrastructure type, description, category, disaster focus). -/
structure SearchRecord where
  name : String
  city : String
  infrastructureType : String
  description : String
  category : String
  disasterFocus : String
deriving DecidableEq, Repr

/-- Modelled from the spec: per-field contribution to the relevance score —
an exact case-insensitive equality match scores `exactW`, a
substring-contains match scores `subW`, a non-match contributes zero
(spec §4.4 step 3). -/
def fieldScore (q : String) (field : String) (exactW subW : ℕ) : ℕ :=
  let f := jsToLower field
  if f = q then exactW
  else if containsSub q.data f.data then subW
  else 0

/-- Modelled from the spec: a record's total relevance score, summing the
per-field contributions with name weighted highest, then city and
infrastructure type, then category and disaster focus, then description
lowest.  The spec leaves the numeric weights open; representative values
preserving the required relative ordering are used. -/
def searchScore (q : String) (r : SearchRecord) : ℕ :=
  fieldScore q r.name 100 50 + fieldScore q r.city 80 40 +
    fieldScore q r.infrastructureType 80 40 + fieldScore q r.category 60 30 +
    fieldScore q r.disasterFocus 60 30 + fieldScore q r.description 20 10

/-- Descending-score comparison for the result ranking. -/
def scoreGe (a b : ℕ × SearchRecord) : Prop := b.1 ≤ a.1

instance : DecidableRel scoreGe := fun a b => inferInstanceAs (Decidable (b.1 ≤ a.1))

instance : IsTotal (ℕ × SearchRecord) scoreGe := ⟨fun a b => Nat.le_total b.1 a.1⟩

instance : IsTrans (ℕ × SearchRecord) scoreGe := ⟨fun _ _ _ h1 h2 => Nat.le_trans h2 h1⟩

/-- Modelled from the spec: `searchProjects` is imported from
`./utils/searchProjects.js`, a repository file that is not among the
provided sources.  Per spec §4.4 it normalizes the query (trim,
lower-case), scores every record, excludes records scoring zero, sorts the
rest by descending score with ties kept in original order (a stable sort,
realized by insertion sort under `scoreGe`), and truncates to the top 10. -/
def searchProjects (query : String) (records : List SearchRecord) : List SearchRecord :=
  let q := jsToLower (jsTrim query)
  let scored := (records.map (fun r => (searchScore q r, r))).filter (fun e => 0 < e.1)
  ((List.insertionSort scoreGe scored).take 10).map Prod.snd

/-- The three pieces of search state written by the search effect (source
lines 321-333): `searchResults`, `showSearchResults`,
`selectedResultIndex`. -/
structure SearchState where
  searchResults : List SearchRecord
  showSearchResults : Bool
  selectedResultIndex : ℤ
deriving DecidableEq, Repr

/-- Embedding of the search `useEffect` (source lines 321-333): a blank
(empty-after-trim) query clears the results, hides the dropdown and resets
the selection; otherwise the results are recomputed and the dropdown is
shown even when the result list is empty. -/
def searchUpdate (query : String) (records : List SearchRecord) : SearchState :=
  if jsTrim query = "" then ⟨[], false, -1⟩
  else ⟨searchProjects query records, true, -1⟩

/-- The render condition of the "No projects found" message (source line
2432): `showSearchResults && searchQuery.trim() && searchResults.length === 0`. -/
def noResultsMessageShown (query : String) (st : SearchState) : Bool :=
  st.showSearchResults && !(jsTrim query = "") && st.searchResults.isEmpty

/-- C6: a query that is empty or all-whitespace produces the
no-active-search state — results cleared, dropdown hidden, no message —
while a non-blank query whose normalized form matches no record produces
the distinguishable no-results state: empty results with the dropdown shown
and the no-results message rendered.  The two states differ in
`showSearchResults`. -/
theorem search_blank_vs_no_results (query : String) (records : List SearchRecord) :
    (jsTrim query = "" →
      searchUpdate query records = ⟨[], false, -1⟩ ∧
      noResultsMessageShown query (searchUpdate query records) = false) ∧
    (jsTrim query ≠ "" →
      (∀ r ∈ records, searchScore (jsToLower (jsTrim query)) r = 0) →
      (searchUpdate query records).searchResults = [] ∧
      (searchUpdate query records).showSearchResults = true ∧
      noResultsMessageShown query (searchUpdate query records) = true) := by
  constructor
  · intro h
    have hupd : searchUpdate query records = ⟨[], false, -1⟩ := by
      unfold searchUpdate
      rw [if_pos h]
    refine ⟨hupd, ?_⟩
    rw [hupd]
    simp [noResultsMessageShown]
  · intro hq hscore
    have hsp : searchProjects query records = [] := by
      have hfil : (records.map (fun r => (searchScore (jsToLower (jsTrim query)) r, r))).filter
          (fun e => 0 < e.1) = [] := by
        rw [List.filter_eq_nil_iff]
        intro e hmem
        obtain ⟨r0, hr0, rfl⟩ := List.mem_map.mp hmem
        simp only [decide_eq_true_eq, not_lt]
        exact le_of_eq (hscore r0 hr0)
      show ((List.insertionSort scoreGe
          ((records.map (fun r => (searchScore (jsToLower (jsTrim query)) r, r))).filter
            (fun e => 0 < e.1))).take 10).map Prod.snd = []
      rw [hfil]
      rfl
    have hupd : searchUpdate query records = ⟨[], true, -1⟩ := by
      unfold searchUpdate
      rw [if_neg hq, hsp]
    rw [hupd]
    refine ⟨rfl, rfl, ?_⟩
    simp [noResultsMessageShown, hq]

/-- A concrete searchable record for the C6 witness. -/
def demoRecord : SearchRecord :=
  ⟨"Baywalk Living Shoreline", "Miami", "Green Infrastructure",
    "A shoreline restoration project", "Resilience", "Storm Surge"⟩

/-- Witness for C6 at a blank query and at a non-matching query. -/
theorem search_blank_vs_no_results_witness :
    searchUpdate "   " [demoRecord] = ⟨[], false, -1⟩ ∧
    (searchUpdate "zzzz" [demoRecord]).searchResults = [] ∧
    (searchUpdate "zzzz" [demoRecord]).showSearchResults = true ∧
    noResultsMessageShown "zzzz" (searchUpdate "zzzz" [demoRecord]) = true :=
  ⟨((search_blank_vs_no_results "   " [demoRecord]).1 (by decide)).1,
   ((search_blank_vs_no_results "zzzz" [demoRecord]).2 (by decide) (by decide)).1,
   ((search_blank_vs_no_results "zzzz" [demoRecord]).2 (by decide) (by decide)).2.1,
   ((search_blank_vs_no_results "zzzz" [demoRecord]).2 (by decide) (by decide)).2.2⟩

end ScaleR

namespace ScaleR

/-! ### Census ingestion (`processedFeatures`) and the marker-loop city
normalization

Properties are embedded as key-ordered association lists (JavaScript
objects have unique keys; insertion order is preserved). -/

/-- Property read `props[k]`: the entry with the key, else `undefined`. -/
def jsGet : List (String × JSVal) → String → JSVal
  | [], _ => .undefined
  | (j, v) :: rest, k => if j = k then v else jsGet rest k

/-- Object update (spread `{ ...props, k: v }` or assignment `props[k] = v`):
an existing key keeps its position and takes the new value, a new key is
appended. -/
def setKey : List (String × JSVal) → String → JSVal → List (String × JSVal)
  | [], k, v => [(k, v)]
  | (j, w) :: rest, k, v => if j = k then (j, v) :: rest else (j, w) :: setKey rest k v

/-- Lookup in the `pred3PEDataRef.current` map (GEOID string → number). -/
def lookupQ : List (String × ℚ) → String → Option ℚ
  | [], _ => none
  | (j, q) :: rest, k => if j = k then some q else lookupQ rest k

/-- The JavaScript `a ?? b` operator. -/
def jsCoalesce (a b : JSVal) : JSVal :=
  if a = .null ∨ a = .undefined then b else a

/-- A census feature: its `id` (`undefined` when absent) and raw
properties. -/
structure CFeature where
  id : JSVal
  properties : List (String × JSVal)
deriving DecidableEq, Repr

/-- The raw FEMA risk-rating key read by the census ingestion. -/
def riskKey : String := "T_FEMA_National_Risk_Index_$_.FEMAIndexRating"

/-- The raw population key read by the census ingestion. -/
def popKey : String :=
  "T_CENSUS_Community_Resilience_Est$_.Total_population__excludes_adult_correctional_juvenile_facilitie"

/-- The raw GEOID key read by the census ingestion. -/
def geoidKey : String := "L0Census_Tracts.GEOID"

/-- The fixed internal keys the derived fields are stored under. -/
def derivedKeys : List String := ["__riskRating", "__population", "__pred3PE"]

/-- `properties[riskKey] || null` (source line 1293). -/
def deriveRisk (props : List (String × JSVal)) : JSVal :=
  if truthy (jsGet props riskKey) then jsGet props riskKey else .null

/-- `parseNumericValue(properties[popKey])` as a stored value (source lines
1294-1296): a finite number or `null`. -/
def derivePopulation (props : List (String × JSVal)) : JSVal :=
  match parseNumericValue (jsGet props popKey) with
  | some q => .num q
  | none => .null

/-- `geoid ? pred3PEDataRef.current[geoid] : null` followed by the
`pred3PE !== null && pred3PE !== undefined ? pred3PE : null` guard (source
lines 1297-1307).  The map access is modelled for string geoids, the only
shape the GEOID column has. -/
def derivePred3PE (pred3PEData : List (String × ℚ)) (props : List (String × JSVal)) : JSVal :=
  let geoid := jsGet props geoidKey
  let pred3PE : JSVal :=
    if truthy geoid then
      match geoid with
      | .str g =>
        match lookupQ pred3PEData g with
        | some q => .num q
        | none => .undefined
      | _ => .undefined
    else .null
  if pred3PE = .null ∨ pred3PE = .undefined then .null else pred3PE

/-- Embedding of the `processedFeatures` map body (source lines 1291-1310)
for one census feature: the id falls back through `feature.id ?? geoid ??
index`, and the derived fields are stored via object spread on a copy of
the raw properties (the model's value semantics corresponds to the
source's `{ ...(feature.properties || {}) }` copy). -/
def processCensusFeature (pred3PEData : List (String × ℚ)) (index : ℕ) (f : CFeature) :
    CFeature :=
  { id := jsCoalesce f.id (jsCoalesce (jsGet f.properties geoidKey) (.num index)),
    properties :=
      setKey (setKey (setKey f.properties "__riskRating" (deriveRisk f.properties))
          "__population" (derivePopulation f.properties))
        "__pred3PE" (derivePred3PE pred3PEData f.properties) }

/-- The `.trim()` call on a property value: defined for strings (the city
fields are strings; a non-string truthy value would throw in the source). -/
def jsTrimVal : JSVal → JSVal
  | .str s => .str (jsTrim s)
  | v => v

/-- Embedding of the in-place city normalization of the marker loop (source
lines 1150-1159): when `props['NAME'] || props['City']` is truthy, the
`NAME` and `City` entries are overwritten with their trimmed values on the
same properties object. -/
def markerNormalizeCity (props : List (String × JSVal)) : List (String × JSVal) :=
  let cityField := jsOrV (jsGet props "NAME") (jsGet props "City")
  if truthy cityField then
    let props1 :=
      if truthy (jsGet props "NAME") then
        setKey props "NAME" (jsTrimVal (jsGet props "NAME"))
      else props
    let props2 :=
      if truthy (jsGet props1 "City") then
        setKey props1 "City" (jsTrimVal (jsGet props1 "City"))
      else props1
    props2
  else props

theorem jsGet_setKey_same (m : List (String × JSVal)) (k : String) (v : JSVal) :
    jsGet (setKey m k v) k = v := by
  induction m with
  | nil => simp [setKey, jsGet]
  | cons e rest ih =>
    obtain ⟨j, w⟩ := e
    by_cases hjk : j = k
    · subst hjk
      simp [setKey, jsGet]
    · simp [setKey, jsGet, hjk, ih]

theorem jsGet_setKey_other (m : List (String × JSVal)) (k : String) (v : JSVal) (j : String)
    (h : j ≠ k) : jsGet (setKey m k v) j = jsGet m j := by
  induction m with
  | nil =>
    have hkj : ¬ k = j := fun hh => h hh.symm
    simp [setKey, jsGet, hkj]
  | cons e rest ih =>
    obtain ⟨a, w⟩ := e
    by_cases hak : a = k
    · subst hak
      have haj : ¬ a = j := fun hh => h (hh.symm)
      simp [setKey, jsGet, haj]
    · by_cases haj : a = j
      · subst haj
        simp [setKey, jsGet, hak]
      · simp [setKey, jsGet, hak, haj, ih]

/-- C8 counterexample: ingestion does not leave the raw source property
values of a feature unchanged — the marker loop overwrites the raw `NAME`
entry in place with its trimmed value. -/
theorem ingestion_mutates_raw_city_property :
    jsGet (markerNormalizeCity [("NAME", .str " Miami ")]) "NAME" = .str "Miami" ∧
    jsGet [("NAME", JSVal.str " Miami ")] "NAME" = .str " Miami " ∧
    markerNormalizeCity [("NAME", .str " Miami ")] ≠ [("NAME", .str " Miami ")] := by
  refine ⟨by decide, by decide, by decide⟩

/-- C8 (amended): census ingestion derives `__riskRating`, `__population`
and `__pred3PE` in a single pass, each a pure function of the feature's raw
properties, stores them under those fixed internal keys — which are
pairwise distinct and distinct from the raw keys the derivation reads — and
preserves the value of every property under any other key on the copied
object; the project marker loop, however, rewrites the raw `NAME` and
`City` values in place with trimmed values, so ingestion does not leave raw
source property values unchanged in general. -/
theorem census_ingestion_derived_fields (pred3PEData : List (String × ℚ)) (index : ℕ)
    (f : CFeature) :
    (∀ k, k ∉ derivedKeys →
      jsGet (processCensusFeature pred3PEData index f).properties k = jsGet f.properties k) ∧
    jsGet (processCensusFeature pred3PEData index f).properties "__riskRating" =
      deriveRisk f.properties ∧
    jsGet (processCensusFeature pred3PEData index f).properties "__population" =
      derivePopulation f.properties ∧
    jsGet (processCensusFeature pred3PEData index f).properties "__pred3PE" =
      derivePred3PE pred3PEData f.properties ∧
    derivedKeys.Nodup ∧
    riskKey ∉ derivedKeys ∧ popKey ∉ derivedKeys ∧ geoidKey ∉ derivedKeys := by
  refine ⟨?_, ?_, ?_, ?_, by decide, by decide, by decide, by decide⟩
  · intro k hk
    simp only [derivedKeys, List.mem_cons, List.not_mem_nil, or_false, not_or] at hk
    obtain ⟨h1, h2, h3⟩ := hk
    show jsGet (setKey (setKey (setKey f.properties "__riskRating" _) "__population" _)
      "__pred3PE" _) k = _
    rw [jsGet_setKey_other _ _ _ _ h3, jsGet_setKey_other _ _ _ _ h2,
      jsGet_setKey_other _ _ _ _ h1]
  · show jsGet (setKey (setKey (setKey f.properties "__riskRating" _) "__population" _)
      "__pred3PE" _) "__riskRating" = _
    rw [jsGet_setKey_other _ _ _ _ (by decide), jsGet_setKey_other _ _ _ _ (by decide),
      jsGet_setKey_same]
  · show jsGet (setKey (setKey (setKey f.properties "__riskRating" _) "__population" _)
      "__pred3PE" _) "__population" = _
    rw [jsGet_setKey_other _ _ _ _ (by decide), jsGet_setKey_same]
  · exact jsGet_setKey_same _ _ _

/-- A concrete census feature for the C8 witness. -/
def demoTract : CFeature :=
  ⟨.undefined,
    [(riskKey, .str "Relatively High"), (popKey, .str "4,512"),
     (geoidKey, .str "12086000107"), ("OtherKey", .num 7)]⟩

/-- Witness for the amended C8 theorem at a concrete census feature. -/
theorem census_ingestion_derived_fields_witness :
    jsGet (processCensusFeature [] 0 demoTract).properties riskKey =
      jsGet demoTract.properties riskKey ∧
    jsGet (processCensusFeature [] 0 demoTract).properties "__riskRating" =
      deriveRisk demoTract.properties :=
  ⟨(census_ingestion_derived_fields [] 0 demoTract).1 riskKey (by decide),
   (census_ingestion_derived_fields [] 0 demoTract).2.1⟩

end ScaleR

namespace ScaleR

/-! ### highlightText (source lines 9-54) -/

/-- One rendered piece of `highlightText` output: a highlighted `<span>`, a
plain `<span>`, or the verbatim value of the early-return `<>{text}</>`. -/
inductive HPiece where
  | mark (s : String)
  | plain (s : String)
  | raw (v : JSVal)
deriving DecidableEq, Repr

/-- Whether the embedded value is a string (`typeof text === 'string'`). -/
def isStrVal : JSVal → Bool
  | .str _ => true
  | _ => false

/-- Case-insensitive match of `term` at the head of `text` — the behavior
of the case-insensitive regex built from the escaped (hence literal) search
term. -/
def matchesAtCI : List Char → List Char → Bool
  | [], _ => true
  | _ :: _, [] => false
  | t :: ts, c :: cs => (t.toLower = c.toLower) && matchesAtCI ts cs

/-- Index of the first case-insensitive occurrence of `term` in `text`. -/
def findCI (term : List Char) : List Char → Option ℕ
  | [] => if matchesAtCI term [] then some 0 else none
  | c :: cs =>
    if matchesAtCI term (c :: cs) then some 0
    else (findCI term cs).map (· + 1)

/-- The splitting pass of `text.split(regex)` with the capture-group regex
`(escapedQuery)` under the `gi` flags: the output alternates non-matching
chunks with matched occurrences of the literal search term, the matched
chunks keeping the original casing.  The fuel argument bounds the
recursion; `splitCI` supplies `text.length + 1`, which is never exhausted
because every step consumes at least one character of a nonempty search
term's match. -/
def splitCIAux (term : List Char) : List Char → ℕ → List (List Char)
  | cs, 0 => [cs]
  | cs, fuel + 1 =>
    match findCI term cs with
    | none => [cs]
    | some i =>
      cs.take i :: (cs.drop i).take term.length ::
        splitCIAux term ((cs.drop i).drop term.length) fuel

/-- `text.split(new RegExp('(' + escapedQuery + ')', 'gi'))`. -/
def splitCI (term text : List Char) : List (List Char) :=
  splitCIAux term text (text.length + 1)

/-- Embedding of `highlightText` (source lines 9-54): a falsy or non-string
`text` returns the text verbatim, as does a blank (empty or
whitespace-only) query; otherwise the text is split on case-insensitive
occurrences of the trimmed query, parts of positive length are kept, and a
part is highlighted exactly when it equals the search term
case-insensitively. -/
def highlightText (text : JSVal) (query : String) : List HPiece :=
  if !truthy text || !isStrVal text then [.raw text]
  else if jsTrim query = "" then [.raw text]
  else
    match text with
    | .str s =>
      let searchTerm := jsTrim query
      let parts := (splitCI searchTerm.data s.data).filter (fun p => 0 < p.length)
      parts.map (fun p =>
        if jsToLower (String.mk p) = jsToLower searchTerm then HPiece.mark (String.mk p)
        else HPiece.plain (String.mk p))
    | _ => [.raw text]

/-- The text carried by one output piece (a non-string raw value renders no
text). -/
def pieceText : HPiece → String
  | .mark s => s
  | .plain s => s
  | .raw (.str s) => s
  | .raw _ => ""

theorem join_splitCIAux (term : List Char) (fuel : ℕ) (cs : List Char) :
    (splitCIAux term cs fuel).join = cs := by
  induction fuel generalizing cs with
  | zero => simp [splitCIAux]
  | succ fuel ih =>
    unfold splitCIAux
    cases h : findCI term cs with
    | none => simp
    | some i =>
      simp only [List.join_cons, ih]
      rw [List.take_append_drop, List.take_append_drop]

theorem join_splitCI (term text : List Char) : (splitCI term text).join = text :=
  join_splitCIAux term _ text

theorem join_filter_nonempty (l : List (List Char)) :
    (l.filter (fun p => 0 < p.length)).join = l.join := by
  induction l with
  | nil => rfl
  | cons p rest ih =>
    by_cases hp : 0 < p.length
    · simp only [List.filter_cons, decide_eq_true_eq, if_pos hp, List.join_cons, ih]
    · have hpe : p = [] := by
        cases p with
        | nil => rfl
        | cons a as => simp at hp
      subst hpe
      simp only [List.filter_cons, decide_eq_true_eq, if_neg hp, List.join_cons, ih,
        List.nil_append]

theorem str_append_empty (s : String) : s ++ "" = s := by
  cases s with
  | mk data =>
    show String.mk (data ++ []) = String.mk data
    rw [List.append_nil]

theorem foldr_append_mk (l : List (List Char)) :
    (l.map (fun p => String.mk p)).foldr (fun a b => a ++ b) "" = String.mk l.join := by
  induction l with
  | nil => rfl
  | cons p rest ih =>
    simp only [List.map_cons, List.foldr_cons, ih]
    rfl

/-- C10: concatenating the pieces produced by `highlightText`, in order,
restores the original text exactly (highlighting never drops, duplicates or
reorders characters); a non-string text, and a blank (empty or
all-whitespace) query on a string text, return the text verbatim as a
single unhighlighted piece. -/
theorem highlightText_preserves_text (s : String) (v : JSVal) (query : String) :
    ((highlightText (.str s) query).map pieceText).foldr (fun a b => a ++ b) "" = s ∧
    (isStrVal v = false → highlightText v query = [.raw v]) ∧
    (jsTrim query = "" → highlightText (.str s) query = [.raw (.str s)]) := by
  refine ⟨?_, ?_, ?_⟩
  · by_cases hs : s = ""
    · subst hs
      simp [highlightText, truthy, pieceText, str_append_empty]
    · by_cases hq : jsTrim query = ""
      · simp [highlightText, truthy, isStrVal, hs, hq, pieceText, str_append_empty]
      · have hguard1 : (!truthy (JSVal.str s) || !isStrVal (JSVal.str s)) = false := by
          simp [truthy, isStrVal, hs]
        unfold highlightText
        rw [hguard1]
        simp only [Bool.false_eq_true, if_false, if_neg hq]
        rw [List.map_map]
        have hcomp : (pieceText ∘ fun p =>
            if jsToLower (String.mk p) = jsToLower (jsTrim query) then HPiece.mark (String.mk p)
            else HPiece.plain (String.mk p)) = fun p => String.mk p := by
          funext p
          simp only [Function.comp_apply]
          split <;> rfl
        rw [hcomp, foldr_append_mk, join_filter_nonempty, join_splitCI]
  · intro h
    simp [highlightText, h]
  · intro hq
    by_cases hs : s = ""
    · subst hs
      simp [highlightText, truthy]
    · simp [highlightText, truthy, isStrVal, hs, hq]

/-- Witness for C10: a non-string text and a blank query at concrete
inputs, plus the concatenation identity at a concrete highlighted split. -/
theorem highlightText_preserves_text_witness :
    highlightText (.num 5) "park" = [.raw (.num 5)] ∧
    highlightText (.str "Coastal Park") "   " = [.raw (.str "Coastal Park")] ∧
    ((highlightText (.str "Miami Beach") "beach").map pieceText).foldr
      (fun a b => a ++ b) "" = "Miami Beach" :=
  ⟨(highlightText_preserves_text "" (.num 5) "park").2.1 (by decide),
   (highlightText_preserves_text "Coastal Park" (.num 5) "   ").2.2 (by decide),
   (highlightText_preserves_text "Miami Beach" (.num 5) "beach").1⟩

end ScaleR
